import Mathlib

set_option linter.unusedVariables false

/- Shallow embedding of the statistics ranking and qualification engine of
GameNotesAgent_Public.py.  A table is a list of rows; one numeric column is
modelled at a time, which is faithful because the source ranks each numeric
column independently of the others.  Missing numeric values (NaN) are Option
none; machine floats are modelled as rationals. -/

/-- Decimal digit character, as produced by Python str() of a digit. -/
def digitChar : ℕ → Char
  | 0 => '0'
  | 1 => '1'
  | 2 => '2'
  | 3 => '3'
  | 4 => '4'
  | 5 => '5'
  | 6 => '6'
  | 7 => '7'
  | 8 => '8'
  | _ => '9'

/-- Little-endian digit extraction with explicit fuel (n + 1 steps always
suffice since the argument shrinks by a factor of ten each step). -/
def natDigitsRevAux : ℕ → ℕ → List Char
  | 0, _ => []
  | fuel + 1, n =>
    if n < 10 then [digitChar n]
    else digitChar (n % 10) :: natDigitsRevAux fuel (n / 10)

/-- Little-endian digit character list of a natural number. -/
def natDigitsRev (n : ℕ) : List Char :=
  natDigitsRevAux (n + 1) n

/-- Decimal rendering of a natural number, modelling the Python text
str(int(x)) used by the source for rank components. -/
def renderNat (n : ℕ) : String :=
  String.mk (natDigitsRev n).reverse

/-- numpy/pandas round-half-to-even of a rational to an integer. -/
def roundHalfToEven (q : ℚ) : ℤ :=
  let f := ⌊q⌋
  if q - f < 1/2 then f
  else if (1 : ℚ)/2 < q - f then f + 1
  else if f % 2 = 0 then f else f + 1

/-- Round to d decimal places, half to even (pandas Series.round(d)). -/
def roundTo (d : ℕ) (q : ℚ) : ℚ :=
  (roundHalfToEven (q * 10 ^ d) : ℚ) / 10 ^ d

/-- Fixed-width block of d fractional digits, most significant first. -/
def fracDigits (d : ℕ) (m : ℕ) : List Char :=
  (List.range d).map (fun i => digitChar (m / 10 ^ (d - 1 - i) % 10))

/-- Drop trailing zero digit characters. -/
def trimZeros (l : List Char) : List Char :=
  (l.reverse.dropWhile (fun c => c == '0')).reverse

/-- Decimal rendering of a value rounded to d places, modelling pandas
round(d).astype(str) on a float column: trailing zeros are trimmed but at
least one fractional digit is kept. -/
def renderValQ (d : ℕ) (q : ℚ) : String :=
  let m := roundHalfToEven (q * 10 ^ d)
  let a := m.natAbs
  let ip := a / 10 ^ d
  let fp := a % 10 ^ d
  let frac := trimZeros (fracDigits d fp)
  let fracFinal := if frac.isEmpty then [digitChar 0] else frac
  (if m < 0 then "-" else "") ++ renderNat ip ++ "." ++ String.mk fracFinal

/-- Value component of a cell: a missing value prints as the literal text
nan, because astype(str) of NaN yields that text. -/
def renderVal (d : ℕ) : Option ℚ → String
  | none => "nan"
  | some q => renderValQ d q

/-- Rank component of a cell: str(int(x)) when the rank is present,
otherwise the single-character sentinel. -/
def rankStr : Option ℕ → String
  | none => "_"
  | some n => renderNat n

/-- Dense descending rank of v among vals, embedding the pandas call
rank(ascending=False, method=dense): one plus the number of distinct
values strictly greater than v. -/
def denseRank (vals : List ℚ) (v : ℚ) : ℕ :=
  ((vals.filter (fun w => decide (v < w))).dedup).length + 1

/- ===== Team path (stat_with_ranks, get_all_team_stats) ===== -/

/-- One team row, restricted to the fields the ranking engine reads for a
single numeric column: the key, the grouping key and the column value. -/
structure TRow where
  teamId : ℤ
  conferenceId : ℤ
  value : Option ℚ
deriving DecidableEq

/-- The non-absent values of the column (pandas rank skips NaN). -/
def teamVals (df : List TRow) : List ℚ :=
  df.filterMap TRow.value

/-- National rank series of stat_with_ranks: dense descending rank over all
rows with a present value; NaN rows get NaN (here: none). -/
def natRank (df : List TRow) (r : TRow) : Option ℕ :=
  r.value.map (fun v => denseRank (df.filterMap TRow.value) v)

/-- The rows of df whose conferenceId equals c (one groupby group). -/
def confGroupId (df : List TRow) (c : ℤ) : List TRow :=
  df.filter (fun s => s.conferenceId == c)

/-- The conference group of row r. -/
def confGroup (df : List TRow) (r : TRow) : List TRow :=
  confGroupId df r.conferenceId

/-- Conference rank series of stat_with_ranks: dense descending rank within
the groupby(conferenceId) group of the row. -/
def confRank (df : List TRow) (r : TRow) : Option ℕ :=
  r.value.map (fun v => denseRank ((confGroup df r).filterMap TRow.value) v)

/-- The encoded cell of stat_with_ranks for one row: the value rounded to 1
decimal, then the two ranks, pipe separated. -/
def encodeT (df : List TRow) (r : TRow) : String :=
  renderVal 1 r.value ++ "|" ++ rankStr (natRank df r) ++ "|" ++ rankStr (confRank df r)

/-- stat_with_ranks applied to a whole column: one encoded string per row. -/
def stat_with_ranks (df : List TRow) : List String :=
  df.map (encodeT df)

/-- The tail of get_all_team_stats for one numeric column: rank over the
full merged population, then filter the rows to the requested teamId. -/
def get_all_team_stats_column (pop : List TRow) (teamid : ℤ) : List (ℤ × String) :=
  (pop.map (fun r => (r.teamId, encodeT pop r))).filter (fun p => decide (p.1 = teamid))

/- ===== Player path (extract_qual_flags, stat_with_ranks_qualified,
get_all_player_stats) ===== -/

/-- One element of the isQualArray field: either a well-formed dict with a
zoneName and an isQualified flag, or something else (a dict missing those
keys, a non-dict, ...), on which the dict comprehension of
extract_qual_flags raises KeyError. -/
inductive QualEntry where
  | valid (zoneName : String) (isQualified : Bool)
  | invalid
deriving DecidableEq

/-- The raw isQualArray value: either not a list at all (absent, null, a
scalar, ...) or a list of entries. -/
inductive QualArr where
  | notList
  | list (entries : List QualEntry)
deriving DecidableEq

/-- The dict comprehension inside extract_qual_flags: builds the zone/flag
pairs left to right, raising (error) at the first entry that is not a
well-formed dict. -/
def extractEntries : List QualEntry → Except String (List (String × Bool))
  | [] => .ok []
  | QualEntry.valid z b :: es =>
    match extractEntries es with
    | .ok l => .ok ((z, b) :: l)
    | .error e => .error e
  | QualEntry.invalid :: _ => .error "KeyError"

/-- extract_qual_flags: a non-list input yields the empty mapping; a list is
turned into zone/flag pairs (raising on ill-formed entries). -/
def extract_qual_flags : QualArr → Except String (List (String × Bool))
  | QualArr.notList => .ok []
  | QualArr.list es => extractEntries es

/-- One player row, restricted to what the ranking engine reads for a
single numeric column. -/
structure PRow where
  playerId : ℤ
  conferenceId : ℤ
  value : Option ℚ
  qualArr : QualArr
deriving DecidableEq

/-- The flags of a row as materialized in qual_df (empty when the raw array
is not a list; the error case never reaches the ranker because qual_df is
built first and the exception propagates). -/
def rowFlags (r : PRow) : List (String × Bool) :=
  match extract_qual_flags r.qualArr with
  | .ok l => l
  | .error _ => []

/-- Python dict semantics: the last pair for a zone wins. -/
def qualFlag (r : PRow) (z : String) : Option Bool :=
  (rowFlags r).reverse.lookup z

/-- Whether the qual_ column for zone z exists in the concatenated frame:
apply(pd.Series) creates a column exactly when some row mentions the zone. -/
def qualColExists (df : List PRow) (z : String) : Bool :=
  df.any (fun r => (qualFlag r z).isSome)

/-- The qualification mask of stat_with_ranks_qualified: a stat with no
zone is qualified when its value is present; a zone-scoped stat needs the
flag true as well, except that a zone with no qual_ column anywhere in the
table falls back to value presence only.  A row whose qual_ cell is NaN
(zone absent from its record) counts as not qualified. -/
def qualifiedFor (df : List PRow) (zone : Option String) (r : PRow) : Bool :=
  match zone with
  | none => r.value.isSome
  | some z =>
    if qualColExists df z then ((qualFlag r z).getD false) && r.value.isSome
    else r.value.isSome

/-- values.where(qualified): the column value masked by qualification. -/
def eligVal (df : List PRow) (zone : Option String) (r : PRow) : Option ℚ :=
  if qualifiedFor df zone r then r.value else none

/-- The conference group of a player row (groupby(df[group_col])). -/
def pConfGroupId (df : List PRow) (c : ℤ) : List PRow :=
  df.filter (fun s => s.conferenceId == c)

/-- The conference group of row r. -/
def pConfGroup (df : List PRow) (r : PRow) : List PRow :=
  pConfGroupId df r.conferenceId

/-- National rank of stat_with_ranks_qualified: dense descending rank of
the masked values over the whole table. -/
def natRankQ (df : List PRow) (zone : Option String) (r : PRow) : Option ℕ :=
  (eligVal df zone r).map (fun v => denseRank (df.filterMap (eligVal df zone)) v)

/-- Conference rank of stat_with_ranks_qualified: dense descending rank of
the masked values within the conference group (the mask itself is computed
against the whole table, as values.where(qualified) is). -/
def confRankQ (df : List PRow) (zone : Option String) (r : PRow) : Option ℕ :=
  (eligVal df zone r).map
    (fun v => denseRank ((pConfGroup df r).filterMap (eligVal df zone)) v)

/-- STAT_ZONE_MAP of the source: statistic name to qualification zone;
none means no qualification required. -/
def STAT_ZONE_MAP : List (String × Option String) :=
  [("and1Pct", none),
   ("and1Pct3P", none),
   ("usagePct", none),
   ("tsPct", none),
   ("efgPct", none),
   ("rim3sFgPct", some "rim3s"),
   ("lane2FgPct", some "lane2"),
   ("atr2FgPct", some "atr2"),
   ("paint2FgPct", some "paint2"),
   ("mid2FgPct", some "mid2"),
   ("c3FgPct", some "c3"),
   ("atb3FgPct", some "atb3"),
   ("lw3FgPct", some "lw3"),
   ("rw3FgPct", some "rw3"),
   ("lc3FgPct", some "lc3"),
   ("rc3FgPct", some "rc3"),
   ("tok3FgPct", some "tok3"),
   ("sht3FgPct", some "sht3"),
   ("lng3FgPct", some "lng3")]

/-- stat_zone_map.get(stat): a stat absent from the map and a stat mapped
to None both yield no zone. -/
def statZone (stat : String) : Option String :=
  (STAT_ZONE_MAP.lookup stat).join

/-- The encoded cell of stat_with_ranks_qualified for one row: value
rounded to 3 decimals, then the two ranks, pipe separated. -/
def encodeQ (df : List PRow) (zone : Option String) (r : PRow) : String :=
  renderVal 3 r.value ++ "|" ++ rankStr (natRankQ df zone r) ++ "|" ++ rankStr (confRankQ df zone r)

/-- stat_with_ranks_qualified applied to a whole column. -/
def stat_with_ranks_qualified (df : List PRow) (stat : String) : List String :=
  df.map (encodeQ df (statZone stat))

/-- Building qual_df: extract_qual_flags applied to every row, the first
KeyError aborting the whole operation. -/
def extractAll : List PRow → Except String (List (List (String × Bool)))
  | [] => .ok []
  | r :: rs =>
    match extract_qual_flags r.qualArr with
    | .error e => .error e
    | .ok f =>
      match extractAll rs with
      | .error e => .error e
      | .ok fs => .ok (f :: fs)

/-- The keep_cols projection list of the source (lines 372-385), applied to
the merged player frame as merged[keep_cols].  It contains isQualified but
not isQualArray. -/
def keep_cols : List String :=
  ["playerId", "gs", "mins", "poss", "plusMinus", "orb", "drb", "reb", "blkd",
   "tf", "pitp", "scp", "fbpts", "tsa", "minsPg", "ptsScoredPg", "ftaPg",
   "astPg", "orbPg", "drbPg", "rebPg", "pfdPg", "tfPg", "scpPg", "pitpPg",
   "fbptsPg", "blkdPg", "tovPg", "ftaRate", "ftmRate", "orbPct", "drbPct",
   "rebPct", "astTov", "astPct", "astRatio", "blkPct", "blkdPerFga",
   "pfdPerFga", "stlPct", "tovPct", "stlTov", "pfEff", "stlPerPf", "blkPerPf",
   "scpPctPts", "fbptsPctPts", "pitpPctPts", "ftmPctPts", "fgm2PctPts",
   "fgm3PctPts", "vps", "hkmPct", "astUsage", "per", "warp", "ortgPlayer",
   "drtgPlayer", "ws", "ows", "dws", "rapm", "orapm", "drapm", "fullName",
   "height", "position", "classYr", "ptsScored", "ptsCreated", "nbaFgm3",
   "nbaFga3", "ast", "ast3", "ast2", "fga", "fga2", "fga3", "fgm", "fgm2",
   "fgm3", "astdPts", "ptsAstd", "rim3sFgmA", "rim3sFgmU", "rim3sAst",
   "lane2FgmA", "lane2FgmU", "lane2Ast", "fgmA", "fgm2A", "fgm3A", "dunkFgmA",
   "fgmU", "fgm2U", "fgm3U", "dunkFgmU", "ftm", "fta", "orbFg", "orbFt",
   "drbFg", "drbFt", "shotAtt", "shotAtt2P", "shotAtt3P", "pf", "pfd",
   "sflDrawn", "and1", "stl", "blk", "tov", "gp", "fgPct", "fg2Pct", "fg3Pct",
   "efgPct", "fga3Rate", "goodTakeRate", "rim3sFgPct", "rim3sFgaFreq",
   "rim3sFgaPg", "lane2FgPct", "lane2FgaFreq", "lane2FgaPg", "atr2FgPct",
   "paint2FgPct", "mid2FgPct", "c3FgPct", "atb3FgPct", "ftPct", "dunkFgPct",
   "layupFgPct", "usagePct", "isQualified", "tsPct", "ttsPct", "conferenceId"]

/-- get_all_player_stats for one numeric column: both sources are filtered
to the requested playerIds before the merge (modelled as a filter of the
merged population, which the inner join on playerId makes equivalent);
then merged[keep_cols] (line 488) raises when one of the keep columns is
missing from the merged frame (mergedCols is that frame's column set) and
otherwise leaves a frame whose columns are exactly keep_cols; then
merged[isQualArray] (line 491) raises when that column is absent from the
projected frame; only past both reads would qual_df be built, every row
encoded with ranks computed over the requested-id-filtered table, and the
final isin filter applied. -/
def get_all_player_stats_col (mergedCols : List String) (pop : List PRow)
    (req : List ℤ) (stat : String) : Except String (List (ℤ × String)) :=
  let df := pop.filter (fun r => decide (r.playerId ∈ req))
  if keep_cols.all (fun c => decide (c ∈ mergedCols)) then
    if "isQualArray" ∈ keep_cols then
      match extractAll df with
      | .error e => .error e
      | .ok _ =>
        .ok ((df.map (fun r => (r.playerId, encodeQ df (statZone stat) r))).filter
          (fun p => decide (p.1 ∈ req)))
    else .error "KeyError: isQualArray"
  else .error "KeyError: keep_cols"

/- ===== Source reconciliation / merge (get_all_team_stats lines 340-343,
get_all_player_stats lines 484-487) ===== -/

/-- A tabular source: named columns and rows; a row assigns a value to
every column name (only the names in cols are meaningful). -/
structure DFrame where
  cols : List String
  rows : List (String → ℚ)

/-- A column of the first source survives the drop when it is not shared
with the second source, or is the key (overlap_columns_list.remove(key)). -/
def keepCol (cols2 : List String) (key c : String) : Bool :=
  !(decide (c ∈ cols2)) || (c == key)

/-- df1.drop(columns=overlap_columns_list): every shared non-key column is
removed from the first source. -/
def dropOverlap (df1 df2 : DFrame) (key : String) : DFrame :=
  DFrame.mk (df1.cols.filter (keepCol df2.cols key)) df1.rows

/-- A merged row: values of the (already reduced) first source where it
still owns the column, otherwise values of the second source. -/
def combineRow (cols1 : List String) (r1 r2 : String → ℚ) : String → ℚ :=
  fun c => if decide (c ∈ cols1) then r1 c else r2 c

/-- pd.merge(df1, df2, on=key): inner join, one combined row for every pair
of rows agreeing on the key. -/
def innerMergeRows (df1 : DFrame) (df2 : DFrame) (key : String) : List (String → ℚ) :=
  df1.rows.flatMap
    (fun r1 => (df2.rows.filter (fun r2 => decide (r1 key = r2 key))).map
      (combineRow df1.cols r1))

/-- The reconciliation and merge step shared by get_all_team_stats and
get_all_player_stats: drop shared non-key columns from the first source,
then inner-join on the key.  The list remove call and the merge both
require the key to be present in both sources; otherwise the Python raises
(modelled as none). -/
def get_merged (df1 df2 : DFrame) (key : String) : Option DFrame :=
  if decide (key ∈ df1.cols) && decide (key ∈ df2.cols) then
    let df1' := dropOverlap df1 df2 key
    some (DFrame.mk
      (df1'.cols ++ df2.cols.filter (fun c => !(decide (c ∈ df1'.cols))))
      (innerMergeRows df1' df2 key))
  else none

/- ===== Quad split (get_team_quad_stats) ===== -/

/-- One per-game row: the opponent quad classification and the numeric
columns of the game. -/
structure GameRow where
  quadAgst : String
  stats : String → ℚ

/-- np.where(quadAgst == quad1 or quadAgst == quad2, 1, 0). -/
def q1or2 (r : GameRow) : Bool :=
  (r.quadAgst == "quad1") || (r.quadAgst == "quad2")

/-- Column-wise mean of a bucket of games. -/
def colMean (games : List GameRow) (c : String) : ℚ :=
  ((games.map (fun g => g.stats c)).sum) / (games.length : ℚ)

/-- The administrative columns dropped from the quad-split output. -/
def quadDropCols : List String :=
  ["overallWins", "overallLosses", "leagueId", "competitionId", "gameId",
   "teamId", "homeId", "conferenceId", "divisionId", "teamIdAgst",
   "conferenceIdAgst", "divisionIdAgst", "apPollAgst", "teamGameRecency",
   "netRankAgst", "confWins", "confLosses"]

/-- One output row of the quad split: the bucket label, the surviving
numeric columns and their means. -/
structure QuadOut where
  quadGroup : String
  cols : List String
  means : String → ℚ

/-- get_team_quad_stats: group the games by the Q1OR2 indicator (groupby
emits only nonempty groups, key 0 first), take column-wise means over the
numeric columns, drop the administrative columns (df.drop raises when one
of them is absent, modelled as none), and label the buckets. -/
def get_team_quad_stats (games : List GameRow) (numericCols : List String) :
    Option (List QuadOut) :=
  if quadDropCols.all (fun c => decide (c ∈ numericCols)) then
    let outCols := numericCols.filter (fun c => !(decide (c ∈ quadDropCols)))
    let g0 := games.filter (fun g => !(q1or2 g))
    let g1 := games.filter q1or2
    some ((if g0.isEmpty then [] else [QuadOut.mk "Quad 3 & 4" outCols (colMean g0)]) ++
      (if g1.isEmpty then [] else [QuadOut.mk "Quad 1 & 2" outCols (colMean g1)]))
  else none

/- ===== Dense rank lemma kit ===== -/

lemma denseRank_eq_card (vals : List ℚ) (v : ℚ) :
    denseRank vals v = (vals.toFinset.filter (fun w => v < w)).card + 1 := by
  unfold denseRank
  congr 1
  rw [← List.card_toFinset]
  congr 1
  ext w
  simp [List.mem_toFinset, List.mem_filter]

lemma image_gtCard :
    ∀ (n : ℕ) (s : Finset ℚ), s.card = n →
      s.image (fun v => (s.filter (fun w => v < w)).card) = Finset.range n := by
  intro n
  induction n with
  | zero =>
    intro s hs
    rw [Finset.card_eq_zero] at hs
    subst hs
    simp
  | succ n ih =>
    intro s hs
    have hne : s.Nonempty := Finset.card_pos.mp (by omega)
    obtain ⟨m, hm, hmax⟩ := Finset.exists_max_image s id hne
    have hmt : m ∉ s.erase m := Finset.not_mem_erase m s
    have hins : insert m (s.erase m) = s := Finset.insert_erase hm
    have hcard : (s.erase m).card = n := by
      rw [Finset.card_erase_of_mem hm, hs]
      omega
    rw [← hins, Finset.image_insert]
    have h0 : ((insert m (s.erase m)).filter (fun w => m < w)).card = 0 := by
      rw [Finset.card_eq_zero, Finset.filter_eq_empty_iff]
      intro w hw
      rw [hins] at hw
      exact not_lt.mpr (hmax w hw)
    have hstep : ∀ v ∈ s.erase m,
        ((insert m (s.erase m)).filter (fun w => v < w)).card
          = ((s.erase m).filter (fun w => v < w)).card + 1 := by
      intro v hv
      have hvm : v < m := by
        rcases Finset.mem_erase.mp hv with ⟨hne', hvs⟩
        exact lt_of_le_of_ne (hmax v hvs) hne'
      rw [Finset.filter_insert, if_pos hvm, Finset.card_insert_of_not_mem]
      intro hmem
      exact hmt (Finset.mem_filter.mp hmem).1
    have himg : (s.erase m).image
          (fun v => ((insert m (s.erase m)).filter (fun w => v < w)).card)
        = ((s.erase m).image
            (fun v => ((s.erase m).filter (fun w => v < w)).card)).image
              (fun x => x + 1) := by
      rw [Finset.image_image]
      exact Finset.image_congr (fun v hv => hstep v hv)
    rw [himg, ih _ hcard, h0]
    ext k
    simp only [Finset.mem_insert, Finset.mem_image, Finset.mem_range]
    constructor
    · rintro (rfl | ⟨j, hj, rfl⟩) <;> omega
    · intro hk
      rcases Nat.eq_zero_or_pos k with rfl | hk0
      · exact Or.inl rfl
      · exact Or.inr ⟨k - 1, by omega, by omega⟩

lemma denseRank_pos (vals : List ℚ) (v : ℚ) : 1 ≤ denseRank vals v := by
  unfold denseRank
  omega

lemma denseRank_le_dedup (vals : List ℚ) (v : ℚ) (hv : v ∈ vals) :
    denseRank vals v ≤ vals.dedup.length := by
  rw [denseRank_eq_card, ← List.card_toFinset]
  have hmem : (vals.toFinset.filter (fun w => v < w)).card
      ∈ Finset.range vals.toFinset.card := by
    rw [← image_gtCard vals.toFinset.card vals.toFinset rfl]
    exact Finset.mem_image_of_mem _ (List.mem_toFinset.mpr hv)
  have := Finset.mem_range.mp hmem
  omega

lemma denseRank_surj (vals : List ℚ) (n : ℕ) (h1 : 1 ≤ n)
    (h2 : n ≤ vals.dedup.length) : ∃ v ∈ vals, denseRank vals v = n := by
  have hmem : n - 1 ∈ Finset.range vals.toFinset.card := by
    rw [Finset.mem_range, List.card_toFinset]
    omega
  rw [← image_gtCard vals.toFinset.card vals.toFinset rfl] at hmem
  obtain ⟨v, hv, hcard⟩ := Finset.mem_image.mp hmem
  refine ⟨v, List.mem_toFinset.mp hv, ?_⟩
  rw [denseRank_eq_card, hcard]
  omega

lemma denseRank_lt_of_lt (vals : List ℚ) (v1 v2 : ℚ) (h1 : v1 ∈ vals)
    (hlt : v2 < v1) : denseRank vals v1 < denseRank vals v2 := by
  rw [denseRank_eq_card, denseRank_eq_card]
  have hss : vals.toFinset.filter (fun w => v1 < w)
      ⊂ vals.toFinset.filter (fun w => v2 < w) := by
    refine (Finset.ssubset_iff_of_subset ?_).mpr ?_
    · intro w hw
      rcases Finset.mem_filter.mp hw with ⟨hwm, hwlt⟩
      exact Finset.mem_filter.mpr ⟨hwm, lt_trans hlt hwlt⟩
    · refine ⟨v1, ?_, ?_⟩
      · exact Finset.mem_filter.mpr ⟨List.mem_toFinset.mpr h1, hlt⟩
      · intro hmem
        exact absurd (Finset.mem_filter.mp hmem).2 (lt_irrefl v1)
  have := Finset.card_lt_card hss
  omega

lemma denseRank_subset_le (valsSub vals : List ℚ) (v : ℚ)
    (hsub : ∀ x ∈ valsSub, x ∈ vals) :
    denseRank valsSub v ≤ denseRank vals v := by
  rw [denseRank_eq_card, denseRank_eq_card]
  have : valsSub.toFinset.filter (fun w => v < w)
      ⊆ vals.toFinset.filter (fun w => v < w) := by
    intro w hw
    rcases Finset.mem_filter.mp hw with ⟨hwm, hwlt⟩
    exact Finset.mem_filter.mpr ⟨List.mem_toFinset.mpr (hsub w (List.mem_toFinset.mp hwm)), hwlt⟩
  have := Finset.card_le_card this
  omega

lemma denseRank_eq_one_of_max (vals : List ℚ) (v : ℚ)
    (hmax : ∀ w ∈ vals, w ≤ v) : denseRank vals v = 1 := by
  rw [denseRank_eq_card]
  have : vals.toFinset.filter (fun w => v < w) = ∅ := by
    rw [Finset.filter_eq_empty_iff]
    intro w hw
    exact not_lt.mpr (hmax w (List.mem_toFinset.mp hw))
  rw [this]
  rfl

/- ===== Bridging lemmas ===== -/

lemma mem_confGroupId {df : List TRow} {c : ℤ} {r : TRow} :
    r ∈ confGroupId df c ↔ r ∈ df ∧ r.conferenceId = c := by
  simp [confGroupId, List.mem_filter]

lemma mem_pConfGroupId {df : List PRow} {c : ℤ} {r : PRow} :
    r ∈ pConfGroupId df c ↔ r ∈ df ∧ r.conferenceId = c := by
  simp [pConfGroupId, List.mem_filter]

lemma confGroup_eq (df : List TRow) (r : TRow) (c : ℤ) (h : r.conferenceId = c) :
    confGroup df r = confGroupId df c := by
  rw [confGroup, h]

lemma pConfGroup_eq (df : List PRow) (r : PRow) (c : ℤ) (h : r.conferenceId = c) :
    pConfGroup df r = pConfGroupId df c := by
  rw [pConfGroup, h]

/-- C1: for every numeric column ranked by the engine (team path
stat_with_ranks via natRank/confRank, player path stat_with_ranks_qualified
via natRankQ/confRankQ), the national rank series is a dense rank over the
rows with a non-absent (and, for players, qualified) value, ranked
descending so that a strictly higher value gets a strictly smaller rank,
ties share the same rank, and the set of assigned national ranks (excluding
the sentinel) is exactly the range 1..k, where k is the number of distinct
values among eligible rows; the conference rank has the same dense
descending semantics independently within each conferenceId group. -/
theorem C1_dense_rank_no_gaps :
    (∀ (df : List TRow) (r : TRow) (v : ℚ), r ∈ df → r.value = some v →
      ∃ n, natRank df r = some n ∧ 1 ≤ n ∧ n ≤ (teamVals df).dedup.length) ∧
    (∀ (df : List TRow) (n : ℕ), 1 ≤ n → n ≤ (teamVals df).dedup.length →
      ∃ r, r ∈ df ∧ natRank df r = some n) ∧
    (∀ (df : List TRow) (r1 r2 : TRow) (v : ℚ), r1.value = some v →
      r2.value = some v → natRank df r1 = natRank df r2) ∧
    (∀ (df : List TRow) (r1 r2 : TRow) (v1 v2 : ℚ), r1 ∈ df → r1.value = some v1 →
      r2.value = some v2 → v2 < v1 →
      ∃ n1 n2, natRank df r1 = some n1 ∧ natRank df r2 = some n2 ∧ n1 < n2) ∧
    (∀ (df : List TRow) (r : TRow), confRank df r = natRank (confGroup df r) r) ∧
    (∀ (df : List TRow) (c : ℤ) (n : ℕ), 1 ≤ n →
      n ≤ (teamVals (confGroupId df c)).dedup.length →
      ∃ r, r ∈ df ∧ r.conferenceId = c ∧ confRank df r = some n) ∧
    (∀ (df : List PRow) (zone : Option String) (r : PRow) (v : ℚ), r ∈ df →
      eligVal df zone r = some v →
      ∃ n, natRankQ df zone r = some n ∧ 1 ≤ n ∧
        n ≤ (df.filterMap (eligVal df zone)).dedup.length) ∧
    (∀ (df : List PRow) (zone : Option String) (n : ℕ), 1 ≤ n →
      n ≤ (df.filterMap (eligVal df zone)).dedup.length →
      ∃ r, r ∈ df ∧ natRankQ df zone r = some n) ∧
    (∀ (df : List PRow) (zone : Option String) (r1 r2 : PRow) (v : ℚ),
      eligVal df zone r1 = some v → eligVal df zone r2 = some v →
      natRankQ df zone r1 = natRankQ df zone r2) ∧
    (∀ (df : List PRow) (zone : Option String) (r1 r2 : PRow) (v1 v2 : ℚ),
      r1 ∈ df → eligVal df zone r1 = some v1 → eligVal df zone r2 = some v2 →
      v2 < v1 →
      ∃ n1 n2, natRankQ df zone r1 = some n1 ∧ natRankQ df zone r2 = some n2 ∧
        n1 < n2) ∧
    (∀ (df : List PRow) (zone : Option String) (c : ℤ) (n : ℕ), 1 ≤ n →
      n ≤ ((pConfGroupId df c).filterMap (eligVal df zone)).dedup.length →
      ∃ r, r ∈ df ∧ r.conferenceId = c ∧ confRankQ df zone r = some n) := by
  refine ⟨?_, ?_, ?_, ?_, ?_, ?_, ?_, ?_, ?_, ?_, ?_⟩
  · intro df r v hr hv
    refine ⟨denseRank (df.filterMap TRow.value) v, ?_, denseRank_pos _ _, ?_⟩
    · simp [natRank, hv]
    · exact denseRank_le_dedup _ _ (List.mem_filterMap.mpr ⟨r, hr, hv⟩)
  · intro df n h1 h2
    obtain ⟨v, hv, hrank⟩ := denseRank_surj (teamVals df) n h1 h2
    obtain ⟨r, hr, hveq⟩ := List.mem_filterMap.mp hv
    exact ⟨r, hr, by simp [natRank, hveq]; exact hrank⟩
  · intro df r1 r2 v h1 h2
    simp [natRank, h1, h2]
  · intro df r1 r2 v1 v2 hr1 h1 h2 hlt
    refine ⟨denseRank (df.filterMap TRow.value) v1,
      denseRank (df.filterMap TRow.value) v2, ?_, ?_, ?_⟩
    · simp [natRank, h1]
    · simp [natRank, h2]
    · exact denseRank_lt_of_lt _ _ _ (List.mem_filterMap.mpr ⟨r1, hr1, h1⟩) hlt
  · intro df r
    rfl
  · intro df c n h1 h2
    obtain ⟨v, hv, hrank⟩ := denseRank_surj (teamVals (confGroupId df c)) n h1 h2
    obtain ⟨r, hr, hveq⟩ := List.mem_filterMap.mp hv
    rcases mem_confGroupId.mp hr with ⟨hrdf, hrc⟩
    refine ⟨r, hrdf, hrc, ?_⟩
    rw [confRank, confGroup_eq df r c hrc, hveq]
    exact congrArg some hrank
  · intro df zone r v hr hv
    refine ⟨denseRank (df.filterMap (eligVal df zone)) v, ?_, denseRank_pos _ _, ?_⟩
    · simp [natRankQ, hv]
    · exact denseRank_le_dedup _ _ (List.mem_filterMap.mpr ⟨r, hr, hv⟩)
  · intro df zone n h1 h2
    obtain ⟨v, hv, hrank⟩ := denseRank_surj (df.filterMap (eligVal df zone)) n h1 h2
    obtain ⟨r, hr, hveq⟩ := List.mem_filterMap.mp hv
    exact ⟨r, hr, by simp [natRankQ, hveq]; exact hrank⟩
  · intro df zone r1 r2 v h1 h2
    simp [natRankQ, h1, h2]
  · intro df zone r1 r2 v1 v2 hr1 h1 h2 hlt
    refine ⟨denseRank (df.filterMap (eligVal df zone)) v1,
      denseRank (df.filterMap (eligVal df zone)) v2, ?_, ?_, ?_⟩
    · simp [natRankQ, h1]
    · simp [natRankQ, h2]
    · exact denseRank_lt_of_lt _ _ _ (List.mem_filterMap.mpr ⟨r1, hr1, h1⟩) hlt
  · intro df zone c n h1 h2
    obtain ⟨v, hv, hrank⟩ :=
      denseRank_surj ((pConfGroupId df c).filterMap (eligVal df zone)) n h1 h2
    obtain ⟨r, hr, hveq⟩ := List.mem_filterMap.mp hv
    rcases mem_pConfGroupId.mp hr with ⟨hrdf, hrc⟩
    refine ⟨r, hrdf, hrc, ?_⟩
    rw [confRankQ, pConfGroup_eq df r c hrc, hveq]
    exact congrArg some hrank

def wT1 : TRow := TRow.mk 1 1 (some 90)

def wT2 : TRow := TRow.mk 2 1 (some 80)

def wT3 : TRow := TRow.mk 3 2 (some 85)

def wDf : List TRow := [wT1, wT2, wT3]

/-- Witness for C1 at the three-team scenario of the spec: some row of the
table carries national dense rank 2. -/
theorem C1_dense_rank_no_gaps_witness :
    (1 ≤ 2 ∧ 2 ≤ (teamVals wDf).dedup.length) ∧
    ∃ r, r ∈ wDf ∧ natRank wDf r = some 2 :=
  ⟨⟨by decide, by decide⟩, C1_dense_rank_no_gaps.2.1 wDf 2 (by decide) (by decide)⟩

lemma self_mem_confGroup {df : List TRow} {r : TRow} (hr : r ∈ df) :
    r ∈ confGroup df r := by
  simp [confGroup, confGroupId, List.mem_filter, hr]

lemma self_mem_pConfGroup {df : List PRow} {r : PRow} (hr : r ∈ df) :
    r ∈ pConfGroup df r := by
  simp [pConfGroup, pConfGroupId, List.mem_filter, hr]

/-- C6: whenever both the national and the conference rank of a row are
present, the conference rank is at most the national rank, and at most the
number of eligible rows in the row's conference group; on both the team
path and the player path. -/
theorem C6_conference_subset :
    (∀ (df : List TRow) (r : TRow) (n1 n2 : ℕ), r ∈ df → natRank df r = some n1 →
      confRank df r = some n2 →
      n2 ≤ n1 ∧ n2 ≤ ((confGroup df r).filterMap TRow.value).length) ∧
    (∀ (df : List PRow) (zone : Option String) (r : PRow) (n1 n2 : ℕ), r ∈ df →
      natRankQ df zone r = some n1 → confRankQ df zone r = some n2 →
      n2 ≤ n1 ∧ n2 ≤ ((pConfGroup df r).filterMap (eligVal df zone)).length) := by
  constructor
  · intro df r n1 n2 hr h1 h2
    rcases hv : r.value with _ | v
    · rw [natRank, hv] at h1
      exact absurd h1 (by simp)
    · rw [natRank, hv] at h1
      rw [confRank, hv] at h2
      have h1' : denseRank (df.filterMap TRow.value) v = n1 := Option.some.inj h1
      have h2' : denseRank ((confGroup df r).filterMap TRow.value) v = n2 :=
        Option.some.inj h2
      have hsub : ∀ x ∈ (confGroup df r).filterMap TRow.value,
          x ∈ df.filterMap TRow.value := by
        intro x hx
        obtain ⟨s, hs, hsx⟩ := List.mem_filterMap.mp hx
        exact List.mem_filterMap.mpr ⟨s, (List.mem_filter.mp hs).1, hsx⟩
      have hvmem : v ∈ (confGroup df r).filterMap TRow.value :=
        List.mem_filterMap.mpr ⟨r, self_mem_confGroup hr, hv⟩
      constructor
      · rw [← h1', ← h2']
        exact denseRank_subset_le _ _ _ hsub
      · rw [← h2']
        calc denseRank ((confGroup df r).filterMap TRow.value) v
            ≤ ((confGroup df r).filterMap TRow.value).dedup.length :=
              denseRank_le_dedup _ _ hvmem
          _ ≤ ((confGroup df r).filterMap TRow.value).length :=
              (List.dedup_sublist _).length_le
  · intro df zone r n1 n2 hr h1 h2
    rcases hv : eligVal df zone r with _ | v
    · rw [natRankQ, hv] at h1
      exact absurd h1 (by simp)
    · rw [natRankQ, hv] at h1
      rw [confRankQ, hv] at h2
      have h1' : denseRank (df.filterMap (eligVal df zone)) v = n1 := Option.some.inj h1
      have h2' : denseRank ((pConfGroup df r).filterMap (eligVal df zone)) v = n2 :=
        Option.some.inj h2
      have hsub : ∀ x ∈ (pConfGroup df r).filterMap (eligVal df zone),
          x ∈ df.filterMap (eligVal df zone) := by
        intro x hx
        obtain ⟨s, hs, hsx⟩ := List.mem_filterMap.mp hx
        exact List.mem_filterMap.mpr ⟨s, (List.mem_filter.mp hs).1, hsx⟩
      have hvmem : v ∈ (pConfGroup df r).filterMap (eligVal df zone) :=
        List.mem_filterMap.mpr ⟨r, self_mem_pConfGroup hr, hv⟩
      constructor
      · rw [← h1', ← h2']
        exact denseRank_subset_le _ _ _ hsub
      · rw [← h2']
        calc denseRank ((pConfGroup df r).filterMap (eligVal df zone)) v
            ≤ ((pConfGroup df r).filterMap (eligVal df zone)).dedup.length :=
              denseRank_le_dedup _ _ hvmem
          _ ≤ ((pConfGroup df r).filterMap (eligVal df zone)).length :=
              (List.dedup_sublist _).length_le

/-- Witness for C6 at the three-team scenario: the second team is third
nationally and second in its conference, and both bounds hold. -/
theorem C6_conference_subset_witness :
    2 ≤ 3 ∧ 2 ≤ ((confGroup wDf wT2).filterMap TRow.value).length :=
  C6_conference_subset.1 wDf wT2 3 2 (by decide) (by decide) (by decide)

lemma append_sentinel_both (a : String) :
    a ++ "|" ++ "_" ++ "|" ++ "_" = a ++ "|_|_" := by
  rw [String.append_assoc, String.append_assoc, String.append_assoc]
  rfl

/-- C2: a zone-scoped statistic of a player whose qualification flag for
that zone is false encodes with the sentinel in both rank positions, no
matter what its value is; the row stays in the output table; and a
statistic with no zone in STAT_ZONE_MAP (absent, or mapped to None) gets a
rank exactly when its value is present. -/
theorem C2_qualification_gating (df : List PRow) (stat z : String) (r : PRow)
    (hz : statZone stat = some z) (hr : r ∈ df) (hf : qualFlag r z = some false) :
    natRankQ df (statZone stat) r = none ∧
    confRankQ df (statZone stat) r = none ∧
    encodeQ df (statZone stat) r = renderVal 3 r.value ++ "|_|_" ∧
    (stat_with_ranks_qualified df stat).length = df.length ∧
    (∀ (stat2 : String) (r2 : PRow), statZone stat2 = none →
      (((natRankQ df (statZone stat2) r2).isSome ↔ r2.value.isSome) ∧
       ((confRankQ df (statZone stat2) r2).isSome ↔ r2.value.isSome))) := by
  have hcol : qualColExists df z = true := by
    rw [qualColExists, List.any_eq_true]
    exact ⟨r, hr, by rw [hf]; rfl⟩
  have hqual : qualifiedFor df (some z) r = false := by
    simp [qualifiedFor, hcol, hf]
  have helig : eligVal df (some z) r = none := by
    simp [eligVal, hqual]
  refine ⟨?_, ?_, ?_, ?_, ?_⟩
  · rw [hz, natRankQ, helig]
    rfl
  · rw [hz, confRankQ, helig]
    rfl
  · rw [encodeQ, hz, natRankQ, confRankQ, helig]
    exact append_sentinel_both _
  · simp [stat_with_ranks_qualified]
  · intro stat2 r2 hz2
    rw [hz2]
    have helig2 : eligVal df none r2 = r2.value := by
      rcases hv2 : r2.value with _ | v2
      · simp [eligVal, qualifiedFor, hv2]
      · simp [eligVal, qualifiedFor, hv2]
    constructor
    · rw [natRankQ, helig2]
      cases r2.value <;> simp
    · rw [confRankQ, helig2]
      cases r2.value <;> simp

def wP1 : PRow := PRow.mk 1 1 (some (13/20)) (QualArr.list [QualEntry.valid "atr2" false])

/-- Witness for C2: a single player, unqualified for zone atr2 with a
present value for atr2FgPct, gets no national rank. -/
theorem C2_qualification_gating_witness :
    statZone "atr2FgPct" = some "atr2" ∧
    qualFlag wP1 "atr2" = some false ∧
    natRankQ [wP1] (statZone "atr2FgPct") wP1 = none :=
  ⟨by decide, by decide,
    (C2_qualification_gating [wP1] "atr2FgPct" "atr2" wP1 (by decide) (by simp)
      (by decide)).1⟩

/-- C10: a missing raw value encodes as exactly the string nan pipe
sentinel pipe sentinel on both the team and the player path, and the row
stays in the output table. -/
theorem C10_nan_encoding (df : List TRow) (r : TRow) (dfp : List PRow)
    (zone : Option String) (p : PRow) (hr : r.value = none) (hp : p.value = none) :
    encodeT df r = "nan|_|_" ∧
    encodeQ dfp zone p = "nan|_|_" ∧
    (stat_with_ranks df).length = df.length ∧
    (∀ stat : String, (stat_with_ranks_qualified dfp stat).length = dfp.length) := by
  have helig : eligVal dfp zone p = none := by
    rw [eligVal]
    split
    · exact hp
    · rfl
  refine ⟨?_, ?_, ?_, ?_⟩
  · rw [encodeT, natRank, confRank, hr]
    rfl
  · rw [encodeQ, natRankQ, confRankQ, helig, hp]
    rfl
  · simp [stat_with_ranks]
  · intro stat
    simp [stat_with_ranks_qualified]

def wTnan : TRow := TRow.mk 7 1 none

def wPnan : PRow := PRow.mk 8 1 none QualArr.notList

/-- Witness for C10 at a one-row table with a missing value. -/
theorem C10_nan_encoding_witness :
    encodeT [wTnan] wTnan = "nan|_|_" ∧
    encodeQ [wPnan] none wPnan = "nan|_|_" :=
  ⟨(C10_nan_encoding [wTnan] wTnan [wPnan] none wPnan rfl rfl).1,
   (C10_nan_encoding [wTnan] wTnan [wPnan] none wPnan rfl rfl).2.1⟩

lemma digitChar_ne_dot (d : ℕ) : digitChar d ≠ '.' := by
  unfold digitChar
  split <;> decide

lemma natDigitsRevAux_ne_dot :
    ∀ (fuel n : ℕ), ∀ c ∈ natDigitsRevAux fuel n, c ≠ '.' := by
  intro fuel
  induction fuel with
  | zero =>
    intro n c hc
    exact absurd hc (List.not_mem_nil c)
  | succ fuel ih =>
    intro n c hc
    rw [natDigitsRevAux] at hc
    split at hc
    · rcases List.mem_singleton.mp hc with rfl
      exact digitChar_ne_dot _
    · rcases List.mem_cons.mp hc with rfl | h
      · exact digitChar_ne_dot _
      · exact ih (n / 10) c h

lemma natDigitsRev_ne_dot : ∀ (n : ℕ), ∀ c ∈ natDigitsRev n, c ≠ '.' := by
  intro n
  exact natDigitsRevAux_ne_dot (n + 1) n

lemma renderNat_no_dot (n : ℕ) : ∀ c ∈ (renderNat n).data, c ≠ '.' := by
  intro c hc
  rw [renderNat] at hc
  exact natDigitsRev_ne_dot n c (List.mem_reverse.mp hc)

/-- C5: each encoder serializes a cell as the value rounded to the fixed
precision of its path (1 decimal for teams, 3 for players), then the
national rank, then the conference rank, pipe separated; the ranks are
computed from the full-precision values, so two rows whose full-precision
values differ but round to the same value still get distinct ranks ordered
by the full-precision comparison; present ranks render as plain decimal
integers with no decimal point, and the sentinel is the single character
underscore. -/
theorem C5_round_after_rank :
    (∀ (df : List TRow) (r : TRow),
      encodeT df r =
        renderVal 1 r.value ++ "|" ++ rankStr (natRank df r) ++ "|" ++
          rankStr (confRank df r)) ∧
    (∀ (df : List PRow) (zone : Option String) (r : PRow),
      encodeQ df zone r =
        renderVal 3 r.value ++ "|" ++ rankStr (natRankQ df zone r) ++ "|" ++
          rankStr (confRankQ df zone r)) ∧
    (∀ (df : List TRow) (r1 r2 : TRow) (v1 v2 : ℚ), r1 ∈ df → r1.value = some v1 →
      r2.value = some v2 → v2 < v1 → roundTo 1 v1 = roundTo 1 v2 →
      ∃ n1 n2, natRank df r1 = some n1 ∧ natRank df r2 = some n2 ∧ n1 < n2) ∧
    (∀ (df : List PRow) (zone : Option String) (r1 r2 : PRow) (v1 v2 : ℚ),
      r1 ∈ df → eligVal df zone r1 = some v1 → eligVal df zone r2 = some v2 →
      v2 < v1 → roundTo 3 v1 = roundTo 3 v2 →
      ∃ n1 n2, natRankQ df zone r1 = some n1 ∧ natRankQ df zone r2 = some n2 ∧
        n1 < n2) ∧
    (∀ n : ℕ, rankStr (some n) = renderNat n ∧
      ∀ c ∈ (rankStr (some n)).data, c ≠ '.') ∧
    rankStr none = "_" := by
  refine ⟨?_, ?_, ?_, ?_, ?_, rfl⟩
  · intro df r
    rfl
  · intro df zone r
    rfl
  · intro df r1 r2 v1 v2 hr1 h1 h2 hlt hround
    refine ⟨denseRank (df.filterMap TRow.value) v1,
      denseRank (df.filterMap TRow.value) v2, ?_, ?_, ?_⟩
    · simp [natRank, h1]
    · simp [natRank, h2]
    · exact denseRank_lt_of_lt _ _ _ (List.mem_filterMap.mpr ⟨r1, hr1, h1⟩) hlt
  · intro df zone r1 r2 v1 v2 hr1 h1 h2 hlt hround
    refine ⟨denseRank (df.filterMap (eligVal df zone)) v1,
      denseRank (df.filterMap (eligVal df zone)) v2, ?_, ?_, ?_⟩
    · simp [natRankQ, h1]
    · simp [natRankQ, h2]
    · exact denseRank_lt_of_lt _ _ _ (List.mem_filterMap.mpr ⟨r1, hr1, h1⟩) hlt
  · intro n
    exact ⟨rfl, renderNat_no_dot n⟩

def wTr1 : TRow := TRow.mk 1 1 (some (9004/100))

def wTr2 : TRow := TRow.mk 2 1 (some (9001/100))

def wRoundDf : List TRow := [wTr1, wTr2]

/-- Witness for C5: two teams at 90.04 and 90.01 round to the same value at
1 decimal yet carry the distinct ranks of the full-precision order. -/
theorem C5_round_after_rank_witness :
    roundTo 1 (9004/100) = roundTo 1 (9001/100) ∧
    ∃ n1 n2, natRank wRoundDf wTr1 = some n1 ∧ natRank wRoundDf wTr2 = some n2 ∧
      n1 < n2 :=
  ⟨by simp only [roundTo, roundHalfToEven]; norm_num,
    C5_round_after_rank.2.2.1 wRoundDf wTr1 wTr2 (9004/100) (9001/100)
      (by simp [wRoundDf]) rfl rfl (by norm_num)
      (by simp only [roundTo, roundHalfToEven]; norm_num)⟩

/-- C3: the reconciliation step drops every shared non-key column from the
first source (the second source's copy is the one each merged row exposes),
joins inner on the entity identifier so that rows whose identifier is
absent from either side do not appear, and never treats the identifier
column itself as a conflicting column to drop. -/
theorem C3_merge_reconciliation (df1 df2 : DFrame) (key : String) (m : DFrame)
    (hm : get_merged df1 df2 key = some m) :
    (∀ c, c ∈ df1.cols → c ∈ df2.cols → c ≠ key →
      c ∉ (dropOverlap df1 df2 key).cols) ∧
    (∀ row ∈ m.rows, ∃ r1, r1 ∈ df1.rows ∧ ∃ r2, r2 ∈ df2.rows ∧
      r1 key = r2 key ∧ row key = r1 key ∧
      (∀ c, c ∈ df1.cols → c ∈ df2.cols → c ≠ key → row c = r2 c)) ∧
    (∀ r1 ∈ df1.rows, ∀ r2 ∈ df2.rows, r1 key = r2 key →
      combineRow (dropOverlap df1 df2 key).cols r1 r2 ∈ m.rows) ∧
    key ∈ (dropOverlap df1 df2 key).cols ∧
    key ∈ m.cols := by
  rw [get_merged] at hm
  split at hm
  case isFalse => exact absurd hm (by simp)
  case isTrue hguard =>
    have hkey1 : key ∈ df1.cols := by
      rcases Bool.and_eq_true_iff.mp hguard with ⟨h1, _⟩
      exact of_decide_eq_true h1
    have hmeq := Option.some.inj hm
    have hdrop : ∀ c, c ∈ df1.cols → c ∈ df2.cols → c ≠ key →
        c ∉ (dropOverlap df1 df2 key).cols := by
      intro c hc1 hc2 hck hmem
      have hkeep := (List.mem_filter.mp hmem).2
      rw [keepCol] at hkeep
      simp [hc2, hck] at hkeep
    have hkeymem : key ∈ (dropOverlap df1 df2 key).cols := by
      rw [dropOverlap]
      refine List.mem_filter.mpr ⟨hkey1, ?_⟩
      rw [keepCol]
      simp
    refine ⟨hdrop, ?_, ?_, hkeymem, ?_⟩
    · intro row hrow
      rw [← hmeq] at hrow
      obtain ⟨r1, hr1, hrow2⟩ := List.mem_flatMap.mp hrow
      obtain ⟨r2, hr2f, hcomb⟩ := List.mem_map.mp hrow2
      rcases List.mem_filter.mp hr2f with ⟨hr2, hkeyeq⟩
      have hkeyeq' : r1 key = r2 key := of_decide_eq_true hkeyeq
      refine ⟨r1, hr1, r2, hr2, hkeyeq', ?_, ?_⟩
      · rw [← hcomb, combineRow]
        simp [hkeymem]
      · intro c hc1 hc2 hck
        rw [← hcomb, combineRow]
        simp [hdrop c hc1 hc2 hck]
    · intro r1 hr1 r2 hr2 hkeyeq
      rw [← hmeq]
      refine List.mem_flatMap.mpr ⟨r1, hr1, ?_⟩
      exact List.mem_map.mpr ⟨r2, List.mem_filter.mpr ⟨hr2, decide_eq_true hkeyeq⟩, rfl⟩
    · rw [← hmeq]
      exact List.mem_append.mpr (Or.inl hkeymem)

def wRow1a : String → ℚ := fun c => if c = "teamId" then 1 else 10

def wRow2a : String → ℚ := fun c => if c = "teamId" then 1 else 20

def wDf1 : DFrame := DFrame.mk ["teamId", "gp", "pts"] [wRow1a]

def wDf2 : DFrame := DFrame.mk ["teamId", "gp"] [wRow2a]

def wMerged : DFrame := (get_merged wDf1 wDf2 "teamId").getD (DFrame.mk [] [])

/-- Witness for C3 at a two-source example sharing the key and one column. -/
theorem C3_merge_reconciliation_witness :
    "teamId" ∈ (dropOverlap wDf1 wDf2 "teamId").cols ∧ "teamId" ∈ wMerged.cols :=
  ⟨(C3_merge_reconciliation wDf1 wDf2 "teamId" wMerged rfl).2.2.2.1,
   (C3_merge_reconciliation wDf1 wDf2 "teamId" wMerged rfl).2.2.2.2⟩

/-- C9: the team pipeline returns exactly the ranked rows whose teamId
matches the request; when the requested id is absent from the merged
population the result is empty, and emptiness is exactly the not-found
signal (no exception is raised; the computation is a pure function of the
sources). -/
theorem C9_notfound_empty (pop : List TRow) (teamid : ℤ) :
    get_all_team_stats_column pop teamid =
      (pop.filter (fun r => decide (r.teamId = teamid))).map
        (fun r => (r.teamId, encodeT pop r)) ∧
    (get_all_team_stats_column pop teamid = [] ↔ ∀ r ∈ pop, r.teamId ≠ teamid) := by
  have h1 : get_all_team_stats_column pop teamid =
      (pop.filter (fun r => decide (r.teamId = teamid))).map
        (fun r => (r.teamId, encodeT pop r)) := by
    rw [get_all_team_stats_column, List.filter_map]
    rfl
  refine ⟨h1, ?_⟩
  rw [h1]
  constructor
  · intro h r hr hid
    have hfil : r ∈ pop.filter (fun r => decide (r.teamId = teamid)) :=
      List.mem_filter.mpr ⟨hr, decide_eq_true hid⟩
    rw [List.map_eq_nil_iff] at h
    rw [h] at hfil
    exact absurd hfil (List.not_mem_nil r)
  · intro h
    rw [List.map_eq_nil_iff, List.filter_eq_nil_iff]
    intro r hr
    simp [h r hr]

/-- Witness for C9: requesting an id absent from the population yields the
empty table. -/
theorem C9_notfound_empty_witness :
    get_all_team_stats_column wDf 99 = [] :=
  (C9_notfound_empty wDf 99).2.mpr (by decide)

def c4p1 : PRow := PRow.mk 1 1 (some 10) (QualArr.list [])

def c4p2 : PRow := PRow.mk 2 1 (some 20) (QualArr.list [])

def c4pop : List PRow := [c4p1, c4p2]

/-- C4: the claim describes ranks computed over the full merged
population, but the player aggregate assembly cannot return ranked output
at all: the keep_cols projection omits isQualArray, so the subsequent read
of that column raises KeyError on every invocation, before any ranking
happens.  Proved universally (every input yields an error, never ranked
rows) and evaluated at a concrete failing input where the projection
itself succeeds and the isQualArray read is what raises.  (Past that
point, in dead code, both sources were already narrowed to the requested
ids, so the ranking pass it sets up would in any case have run over the
requested subset.) -/
theorem C4_player_stats_always_raises :
    (∀ (mergedCols : List String) (pop : List PRow) (req : List ℤ)
        (stat : String),
      ∃ e, get_all_player_stats_col mergedCols pop req stat
        = Except.error e) ∧
    keep_cols.contains "isQualArray" = false ∧
    get_all_player_stats_col keep_cols c4pop [1] "minsPg"
      = Except.error "KeyError: isQualArray" := by
  refine ⟨?_, by decide, by rfl⟩
  intro mergedCols pop req stat
  simp only [get_all_player_stats_col]
  split
  · exact ⟨"KeyError: isQualArray", rfl⟩
  · exact ⟨"KeyError: keep_cols", rfl⟩

def c7row : PRow := PRow.mk 1 1 (some 65) QualArr.notList

lemma renderValQ_3_65 : renderValQ 3 (65 : ℚ) = "65.0" := by
  have h : roundHalfToEven ((65 : ℚ) * 10 ^ 3) = 65000 := by
    simp only [roundHalfToEven]
    norm_num
  simp only [renderValQ, h]
  rfl

/-- C7 counterexample: in a table in which every qualification record is
malformed (not a list) no qual_ column exists at all, so for the
zone-scoped statistic atr2FgPct the code falls back to presence-only
eligibility and ranks the malformed row instead of giving it sentinel
ranks: the single-row table encodes as 65.0 with ranks 1 and 1. -/
theorem C7_counterexample :
    extract_qual_flags c7row.qualArr = Except.ok [] ∧
    statZone "atr2FgPct" = some "atr2" ∧
    stat_with_ranks_qualified [c7row] "atr2FgPct" = ["65.0|1|1"] := by
  refine ⟨rfl, by decide, ?_⟩
  have hv : renderVal 3 c7row.value = "65.0" := renderValQ_3_65
  show [encodeQ [c7row] (statZone "atr2FgPct") c7row] = ["65.0|1|1"]
  rw [encodeQ, hv]
  rfl

/-- C7 amended: a row whose qualification record is not a list of zone/flag
pairs degrades to unqualified (sentinel in both rank positions) for every
zone-scoped statistic whose zone has a qualification column in the table,
that is, whenever at least one row's record mentions the zone; extracting
such a record yields the empty mapping rather than failing, and the row
stays in the output table.  (When no row in the table mentions the zone,
the code instead falls back to presence-only eligibility and ranks the
statistic.) -/
theorem C7_malformed_degrades (df : List PRow) (stat z : String) (r : PRow)
    (hz : statZone stat = some z) (hr : r ∈ df) (hm : r.qualArr = QualArr.notList)
    (hcol : qualColExists df z = true) :
    extract_qual_flags r.qualArr = Except.ok [] ∧
    natRankQ df (statZone stat) r = none ∧
    confRankQ df (statZone stat) r = none ∧
    encodeQ df (statZone stat) r = renderVal 3 r.value ++ "|_|_" ∧
    (stat_with_ranks_qualified df stat).length = df.length := by
  have hflag : qualFlag r z = none := by
    rw [qualFlag, rowFlags, hm]
    rfl
  have hqual : qualifiedFor df (some z) r = false := by
    simp [qualifiedFor, hcol, hflag]
  have helig : eligVal df (some z) r = none := by
    simp [eligVal, hqual]
  refine ⟨by rw [hm]; rfl, ?_, ?_, ?_, ?_⟩
  · rw [hz, natRankQ, helig]
    rfl
  · rw [hz, confRankQ, helig]
    rfl
  · rw [encodeQ, hz, natRankQ, confRankQ, helig]
    exact append_sentinel_both _
  · simp [stat_with_ranks_qualified]

def c7good : PRow := PRow.mk 2 1 (some 50) (QualArr.list [QualEntry.valid "atr2" true])

def c7df : List PRow := [c7row, c7good]

/-- Witness for the amended C7: next to a well-formed row that mentions
zone atr2, the malformed row gets no national rank. -/
theorem C7_malformed_degrades_witness :
    natRankQ c7df (statZone "atr2FgPct") c7row = none :=
  (C7_malformed_degrades c7df "atr2FgPct" "atr2" c7row (by decide)
    (by simp [c7df]) rfl (by decide)).2.1

def c8g1 : GameRow := GameRow.mk "quad1" (fun _ => 10)

def c8games : List GameRow := [c8g1]

def c8cols : List String := "ptsScored" :: quadDropCols

/-- C8 counterexample: a team whose games all have quad1 or quad2
opponents produces one output row, not two, because groupby emits only
nonempty groups. -/
theorem C8_counterexample :
    Option.map List.length (get_team_quad_stats c8games c8cols) = some 1 ∧
    Option.map (List.map QuadOut.quadGroup) (get_team_quad_stats c8games c8cols)
      = some ["Quad 1 & 2"] := by
  constructor <;> rfl

/-- C8 amended: when each bucket holds at least one game (and the quad
annotations are among quad1..quad4), the quad split emits exactly two rows,
the first labeled Quad 3 & 4 and the second Quad 1 & 2, each numeric column
replaced by its column-wise mean within the bucket, with the administrative
columns excluded from the surviving columns; games with quad1 or quad2
opponents form one bucket, games with quad3 or quad4 opponents the other.
When a bucket is empty its row is simply absent (as the counterexample
shows), rather than two rows always being emitted. -/
theorem C8_quad_split (games : List GameRow) (numericCols : List String)
    (out : List QuadOut)
    (hvalid : ∀ g ∈ games, g.quadAgst = "quad1" ∨ g.quadAgst = "quad2" ∨
      g.quadAgst = "quad3" ∨ g.quadAgst = "quad4")
    (h12 : ∃ g ∈ games, q1or2 g = true)
    (h34 : ∃ g ∈ games, q1or2 g = false)
    (hout : get_team_quad_stats games numericCols = some out) :
    out = [QuadOut.mk "Quad 3 & 4"
        (numericCols.filter (fun c => !(decide (c ∈ quadDropCols))))
        (colMean (games.filter (fun g => !(q1or2 g)))),
      QuadOut.mk "Quad 1 & 2"
        (numericCols.filter (fun c => !(decide (c ∈ quadDropCols))))
        (colMean (games.filter q1or2))] ∧
    out.length = 2 ∧
    (∀ q ∈ out, ∀ c ∈ quadDropCols, c ∉ q.cols) ∧
    (∀ g ∈ games,
      (q1or2 g = true ↔ (g.quadAgst = "quad1" ∨ g.quadAgst = "quad2")) ∧
      (q1or2 g = false ↔ (g.quadAgst = "quad3" ∨ g.quadAgst = "quad4"))) := by
  rw [get_team_quad_stats] at hout
  split at hout
  case isFalse => exact absurd hout (by simp)
  case isTrue hguard =>
    obtain ⟨g12, hg12, hq12⟩ := h12
    obtain ⟨g34, hg34, hq34⟩ := h34
    have hne1 : (games.filter q1or2).isEmpty = false := by
      rcases hfe : games.filter q1or2 with _ | ⟨a, l⟩
      · exact absurd (hfe ▸ List.mem_filter.mpr ⟨hg12, hq12⟩) (List.not_mem_nil g12)
      · rfl
    have hne0 : (games.filter (fun g => !(q1or2 g))).isEmpty = false := by
      rcases hfe : games.filter (fun g => !(q1or2 g)) with _ | ⟨a, l⟩
      · refine absurd (hfe ▸ List.mem_filter.mpr ⟨hg34, ?_⟩) (List.not_mem_nil g34)
        rw [hq34]
        rfl
      · rfl
    simp only [hne0, hne1, Bool.false_eq_true, if_false,
      List.singleton_append] at hout
    have hmeq := Option.some.inj hout
    refine ⟨hmeq.symm, ?_, ?_, ?_⟩
    · rw [← hmeq]
      rfl
    · intro q hq c hc
      rw [← hmeq] at hq
      intro hmem
      have hqcols : q.cols = numericCols.filter (fun c => !(decide (c ∈ quadDropCols))) := by
        rcases List.mem_cons.mp hq with rfl | hq2
        · rfl
        · rcases List.mem_cons.mp hq2 with rfl | hq3
          · rfl
          · exact absurd hq3 (List.not_mem_nil q)
      rw [hqcols] at hmem
      have := (List.mem_filter.mp hmem).2
      simp [hc] at this
    · intro g hg
      rcases hvalid g hg with h | h | h | h <;> rw [q1or2, h] <;>
        exact ⟨by decide, by decide⟩

def c8g2 : GameRow := GameRow.mk "quad2" (fun _ => 20)

def c8g3 : GameRow := GameRow.mk "quad3" (fun _ => 30)

def c8wGames : List GameRow := [c8g1, c8g2, c8g3]

def c8wOut : List QuadOut := (get_team_quad_stats c8wGames c8cols).getD []

/-- Witness for the amended C8 at the spec scenario: games tagged quad1,
quad2, quad3 give exactly two bucket rows. -/
theorem C8_quad_split_witness : c8wOut.length = 2 :=
  (C8_quad_split c8wGames c8cols c8wOut
    (by
      intro g hg
      simp only [c8wGames, List.mem_cons, List.not_mem_nil, or_false] at hg
      rcases hg with rfl | rfl | rfl
      · exact Or.inl rfl
      · exact Or.inr (Or.inl rfl)
      · exact Or.inr (Or.inr (Or.inl rfl)))
    ⟨c8g1, by simp [c8wGames], rfl⟩
    ⟨c8g3, by simp [c8wGames], rfl⟩
    rfl).2.1
